import Mathlib

/-!
# Verification of the Objectiv multi-session streaming conversation manager

Shallow embedding of the streaming chat subsystem of the Objectiv repository:
the SSE wire frame decoder, the two protocol adapters
(`sendAnthropicMessage` / `sendOpenRouterMessage` in `src/utils/markdown.js`),
and the per-tab session state machine of `src/features/chat-window.js` and of
the agent panel module (`handleToolResult` / `executeAction` /
`finalizeStreamingBubble`).

JavaScript strings are modelled as `List Char` in the decoder layer (where we
reason about arbitrary byte chunkings) and as Lean `String` elsewhere.
`JSON.parse` is an external platform capability; it is represented by an
explicit `parse : String → Option Json` parameter over a `Json` value type,
instantiated with concrete finite parse functions for concrete scenarios.
-/

namespace Objectiv

/-! ## SSE wire frame decoder

Embeds the per-read-loop framing logic shared by `sendAnthropicMessage`
(`markdown.js` lines 520–536), `sendOpenRouterMessage` and `sendAgentMessage`
(`chat-window.js` lines 677–689):

```js
buffer += decoder.decode(value, \x7b stream: true \x7d);
const lines = buffer.split('\n');
buffer = lines.pop() || '';
for (const line of lines) \x7b if (line.startsWith('data: ')) ... \x7d
```
-/

/-- JavaScript `s.split('\n')` on a string modelled as `List Char`:
always returns at least one (possibly empty) segment. -/
def splitNL : List Char → List (List Char)
  | [] => [[]]
  | c :: rest =>
    match splitNL rest with
    | [] => [[]]
    | l :: ls => if c = '\n' then [] :: l :: ls else (c :: l) :: ls

/-- One iteration of the read loop: append the incoming fragment to the
residual buffer, split on `'\n'`, keep the final (possibly incomplete) line as
the new residual (`buffer = lines.pop() || ''`), and deliver all complete
lines. Returns (new residual, complete lines in order). -/
def feedFragment (buf frag : List Char) : List Char × List (List Char) :=
  let lines := splitNL (buf ++ frag)
  (lines.getLastD [], lines.dropLast)

/-- Run the read loop over a whole sequence of incoming fragments, starting
from residual `buf`, collecting every complete line delivered, in order. -/
def decodeFragments (buf : List Char) : List (List Char) → List Char × List (List Char)
  | [] => (buf, [])
  | f :: fs =>
    let (b1, out1) := feedFragment buf f
    let (b2, out2) := decodeFragments b1 fs
    (b2, out1 ++ out2)

/-- The `data: ` line prefix as characters. -/
def dataPrefix : List Char := ['d', 'a', 't', 'a', ':', ' ']

/-- The frames delivered from a line sequence: the lines that start with
`data: `, with the prefix stripped (`line.slice(6)`). -/
def dataFrames (lines : List (List Char)) : List (List Char) :=
  (lines.filter (fun l => dataPrefix.isPrefixOf l)).map (fun l => l.drop 6)

/-- Reformulation of one splitting step used for reasoning: scan a string
into (complete lines, trailing incomplete residual) directly. -/
def scanLines : List Char → List (List Char) × List Char
  | [] => ([], [])
  | c :: rest =>
    let p := scanLines rest
    if c = '\n' then ([] :: p.1, p.2)
    else
      match p.1 with
      | [] => ([], c :: p.2)
      | l :: ls => ((c :: l) :: ls, p.2)

/-- Sequential composition of two scans: the residual of the first part
joins the first line (or residual) of the second. -/
def scanCombine :
    List (List Char) × List Char → List (List Char) × List Char →
      List (List Char) × List Char
  | (ls1, r1), ([], r2) => (ls1, r1 ++ r2)
  | (ls1, r1), (l :: ls2, r2) => (ls1 ++ (r1 ++ l) :: ls2, r2)

/-! ## JSON values and protocol adapters

`JSON.parse` is a platform capability, so parsed payloads are modelled by a
`Json` value type; the parse step itself is a `String → Option Json`
parameter (`none` = `JSON.parse` throws). Field access, truthiness and
string coercion follow JavaScript semantics for the shapes that occur. -/

inductive Json where
  | null
  | bool (b : Bool)
  | num (n : Int)
  | str (s : String)
  | arr (items : List Json)
  | obj (fields : List (String × Json))

/-- JS property access `o.k` (via optional chaining `o?.k`): `undefined`
unless `o` is an object with field `k`. -/
def Json.getField : Json → String → Option Json
  | .obj fields, k => (fields.find? (fun f => f.1 == k)).map (fun f => f.2)
  | _, _ => none

/-- JS element access `a?.[0]`. -/
def Json.idx0 : Json → Option Json
  | .arr (x :: _) => some x
  | _ => none

/-- JS truthiness of a defined JSON value. -/
def Json.truthy : Json → Bool
  | .null => false
  | .bool b => b
  | .num n => n != 0
  | .str s => s != ""
  | .arr _ => true
  | .obj _ => true

/-- JS string coercion, as applied by `fullText += chunk` (the streamed
fields are strings in every payload the backends emit). -/
def Json.asText : Json → String
  | .str s => s
  | .null => "null"
  | .bool true => "true"
  | .bool false => "false"
  | .num n => toString n
  | .arr _ => ""
  | .obj _ => "[object Object]"

/-- JS `s.startsWith(p)`. -/
def jsStartsWith (s p : String) : Bool := p.toList.isPrefixOf s.toList

/-- JS strict equality `v === "lit"` of a possibly-undefined value with a
string literal: true exactly when the value is that string. -/
def jsonIs (o : Option Json) (lit : String) : Bool :=
  match o with
  | some (.str t) => t == lit
  | _ => false

/-- The observable callback invocations of a streaming request:
`onChunk?.(chunk, fullText)`, `onComplete?.(fullText)`, `onError?.(e)`. -/
inductive OutEvent where
  | chunk (text full : String)
  | complete (full : String)
  | errorOut (message : String)
deriving DecidableEq

/-- Concatenation of a list of strings in order. -/
def strConcat : List String → String
  | [] => ""
  | s :: rest => s ++ strConcat rest

/-- The texts of the `chunk` events of a trace, in order. -/
def chunkTexts : List OutEvent → List String
  | [] => []
  | .chunk c _ :: rest => c :: chunkTexts rest
  | .complete _ :: rest => chunkTexts rest
  | .errorOut _ :: rest => chunkTexts rest

/-- The accumulation invariant over a trace: every `chunk` event carries a
running text equal to the previous accumulated text extended by its delta,
and every `complete` event carries exactly the accumulated text. -/
def accumOK : String → List OutEvent → Bool
  | _, [] => true
  | full, .chunk c f :: rest => (f == full ++ c) && accumOK f rest
  | full, .complete f :: rest => (f == full) && accumOK full rest
  | full, .errorOut _ :: rest => accumOK full rest

/-- One Format A (event-typed) frame payload, from `sendAnthropicMessage`
(`markdown.js` lines 546–567). Returns (new accumulated text, emitted
callbacks, whether the function returned). The `error`-typed branch embeds
the code as written: its `throw new Error(...)` is intercepted by the
enclosing `catch (parseError)` and only logged, so the stream continues with
no callback. -/
def anthropicEvent (ev : Json) (full : String) :
    String × List OutEvent × Bool :=
  if jsonIs (ev.getField "type") "content_block_delta" then
    match (ev.getField "delta").bind (fun d => d.getField "text") with
    | some t =>
      if t.truthy then
        let full2 := full ++ t.asText
        (full2, [.chunk t.asText full2], false)
      else (full, [], false)
    | none => (full, [], false)
  else if jsonIs (ev.getField "type") "message_stop" then
    (full, [.complete full], true)
  else
    (full, [], false)

/-- The Format A line loop of `sendAnthropicMessage` (`markdown.js` lines
538–572), over the complete lines delivered by the decoder; end of input
invokes `onComplete?.(fullText)`. -/
def anthropicRun (parse : String → Option Json) :
    List String → String → String × List OutEvent
  | [], full => (full, [.complete full])
  | line :: rest, full =>
    if jsStartsWith line "data: " then
      let data := line.drop 6
      if data == "[DONE]" then anthropicRun parse rest full
      else
        match parse data with
        | none => anthropicRun parse rest full
        | some ev =>
          match anthropicEvent ev full with
          | (full2, outs, true) => (full2, outs)
          | (full2, outs, false) =>
            let (full3, outs2) := anthropicRun parse rest full2
            (full3, outs ++ outs2)
    else anthropicRun parse rest full

/-- The Format B (choice-delta) line loop of `sendOpenRouterMessage`
(`markdown.js` lines 638–664): `[DONE]` completes; otherwise
`event.choices?.[0]?.delta?.content` is accumulated when truthy. -/
def openRouterRun (parse : String → Option Json) :
    List String → String → String × List OutEvent
  | [], full => (full, [.complete full])
  | line :: rest, full =>
    if jsStartsWith line "data: " then
      let data := line.drop 6
      if data == "[DONE]" then (full, [.complete full])
      else
        match parse data with
        | none => openRouterRun parse rest full
        | some ev =>
          match (((ev.getField "choices").bind Json.idx0).bind
              (fun c => c.getField "delta")).bind
              (fun d => d.getField "content") with
          | some content =>
            if content.truthy then
              let full2 := full ++ content.asText
              let (full3, outs) := openRouterRun parse rest full2
              (full3, .chunk content.asText full2 :: outs)
            else openRouterRun parse rest full
          | none => openRouterRun parse rest full
    else openRouterRun parse rest full

/-- The catch clause of both senders (`markdown.js` lines 574–579): an
`AbortError` (cancellation) is swallowed; any other failure is reported via
`onError`. -/
def anthropicCatch (errName errMessage : String) : List OutEvent :=
  if errName == "AbortError" then [] else [.errorOut errMessage]

/-! ## Chat window session state (`src/features/chat-window.js`)

State model of the standalone chat window: the `chatTabs` array, the
module-level `messages` mirror of the active tab, `activeTabId`, and the
`tabStreamState` map (tabId → per-tab streaming state). The smd parser
(render sink) attached to a tab's stream is modelled by `hasParser` plus
`parserText`, the total text written to the currently attached parser
(empty when no parser is attached). DOM-only effects (typing indicator,
scrolling, bubble ids) are not part of the state.

`getTabStream` inserts a default entry on first access; since an absent
entry and the default entry are observationally identical, reads are
modelled by `streamOf` (lookup with default) without the insertion. -/

structure Message where
  id : Nat
  content : String
  role : String
  timestamp : Nat
deriving DecidableEq

structure Tab where
  id : Nat
  title : String
  messages : List Message
deriving DecidableEq

structure TabStream where
  hasAbortController : Bool
  hasParser : Bool
  parserText : String
  isStreaming : Bool
  accumulatedText : String
deriving DecidableEq

/-- The default per-tab stream entry created by `getTabStream`
(`chat-window.js` lines 51–61). -/
def TabStream.initial : TabStream :=
  { hasAbortController := false, hasParser := false, parserText := ""
    isStreaming := false, accumulatedText := "" }

structure ChatWindowState where
  chatTabs : List Tab
  activeTabId : Nat
  tabStreamState : List (Nat × TabStream)
  messagesMirror : List Message
deriving DecidableEq

def lookupStream (m : List (Nat × TabStream)) (k : Nat) : Option TabStream :=
  (m.find? (fun e => e.1 == k)).map (fun e => e.2)

def setStream (m : List (Nat × TabStream)) (k : Nat) (v : TabStream) :
    List (Nat × TabStream) :=
  match m with
  | [] => [(k, v)]
  | e :: rest => if e.1 == k then (k, v) :: rest else e :: setStream rest k v

def removeStream (m : List (Nat × TabStream)) (k : Nat) :
    List (Nat × TabStream) :=
  m.filter (fun e => e.1 != k)

/-- The stream state observed for a tab (absent entry ≡ default entry). -/
def streamOf (s : ChatWindowState) (tabId : Nat) : TabStream :=
  (lookupStream s.tabStreamState tabId).getD TabStream.initial

/-- `cleanupTabStream` (`chat-window.js` lines 63–78): abort the outstanding
request if any, end the parser, then delete the map entry (the field resets
are unobservable because the entry is deleted). Returns the new state and
whether `abortController.abort()` was invoked. -/
def cleanupTabStream (s : ChatWindowState) (tabId : Nat) :
    ChatWindowState × Bool :=
  match lookupStream s.tabStreamState tabId with
  | none => ({ s with tabStreamState := removeStream s.tabStreamState tabId }, false)
  | some st =>
    ({ s with tabStreamState := removeStream s.tabStreamState tabId },
      st.hasAbortController)

/-- The per-stream effect of `writeStreamingChunk` (`chat-window.js` lines
553–561): always accumulate; additionally write to the parser when one is
attached and the tab is active. -/
def TabStream.write (st : TabStream) (active : Bool) (chunk : String) :
    TabStream :=
  let st1 := { st with accumulatedText := st.accumulatedText ++ chunk }
  if st1.hasParser && active then
    { st1 with parserText := st1.parserText ++ chunk }
  else st1

def writeStreamingChunk (s : ChatWindowState) (tabId : Nat) (chunk : String) :
    ChatWindowState :=
  let st := (streamOf s tabId).write (tabId == s.activeTabId) chunk
  { s with tabStreamState := setStream s.tabStreamState tabId st }

/-- The per-stream effect of the detach step of `switchToTab`
(`chat-window.js` lines 179–184): end and drop the parser, keep the stream
running. -/
def TabStream.detach (st : TabStream) : TabStream :=
  { st with hasParser := false, parserText := "" }

/-- The per-stream effect of `reattachStreamingBubble` (`chat-window.js`
lines 530–551): attach a fresh parser and replay `accumulatedText` into it
once (when non-empty). -/
def TabStream.reattach (st : TabStream) : TabStream :=
  let st1 := { st with hasParser := true, parserText := "" }
  if st1.accumulatedText != "" then
    { st1 with parserText := st1.accumulatedText }
  else st1

/-- `createStreamingBubble` (`chat-window.js` lines 506–528): only creates a
parser when the tab is the active one. -/
def createStreamingBubble (s : ChatWindowState) (tabId : Nat) :
    ChatWindowState :=
  if tabId == s.activeTabId then
    let st := { streamOf s tabId with hasParser := true, parserText := "" }
    { s with tabStreamState := setStream s.tabStreamState tabId st }
  else s

/-- `finalizeStreamingBubble` (`chat-window.js` lines 563–591): end the
parser, clear the streaming flag and accumulated text, and append an
assistant `Message` with the given content to the tab's messages (and to the
active mirror when the tab is active). `now` stands for `Date.now()`. -/
def finalizeStreamingBubble (s : ChatWindowState) (tabId : Nat)
    (content : String) (now : Nat) : ChatWindowState :=
  let st := streamOf s tabId
  let st1 := { st with hasParser := false, parserText := "", isStreaming := false, accumulatedText := "" }
  let s1 := { s with tabStreamState := setStream s.tabStreamState tabId st1 }
  match s1.chatTabs.find? (fun t => t.id == tabId) with
  | none => s1
  | some _ =>
    let msg : Message :=
      { id := now, content := content, role := "assistant", timestamp := now }
    let s2 := { s1 with chatTabs := s1.chatTabs.map (fun t =>
        if t.id == tabId then { t with messages := t.messages ++ [msg] }
        else t) }
    if tabId == s2.activeTabId then
      { s2 with messagesMirror := s2.messagesMirror ++ [msg] }
    else s2

/-- The start of a send (`sendAskMessage` lines 759–762 / `sendAgentMessage`
lines 659–662): mark streaming, reset accumulated text, create the abort
controller. -/
def startStream (s : ChatWindowState) (tabId : Nat) : ChatWindowState :=
  let st := { streamOf s tabId with isStreaming := true, accumulatedText := "", hasAbortController := true }
  { s with tabStreamState := setStream s.tabStreamState tabId st }

/-- The completion callback shared by `sendAskMessage.onComplete`
(`chat-window.js` lines 781–789) and `sendAgentMessage.onDone` (lines
708–716): drop the abort controller; when the accumulated text is non-empty
(JS truthiness of `fullText`) finalize, otherwise just clear the streaming
flag. -/
def onStreamDone (s : ChatWindowState) (tabId : Nat) (fullText : String)
    (now : Nat) : ChatWindowState :=
  let st := { streamOf s tabId with hasAbortController := false }
  let s1 := { s with tabStreamState := setStream s.tabStreamState tabId st }
  if fullText != "" then finalizeStreamingBubble s1 tabId fullText now
  else
    let st2 := { streamOf s1 tabId with isStreaming := false }
    { s1 with tabStreamState := setStream s1.tabStreamState tabId st2 }

/-- The catch clause of `sendAgentMessage` (`chat-window.js` lines 727–733):
clear the streaming flag and controller; report via `showError` only when
the failure is not an `AbortError`. Returns the new stream state and whether
an error is shown. -/
def agentCatchClause (st : TabStream) (errName : String) : TabStream × Bool :=
  ({ st with isStreaming := false, hasAbortController := false },
    errName != "AbortError")

/-- `saveCurrentTabMessages` (`chat-window.js` lines 236–250): copy the
mirror into the active tab and derive a title from the first user message
when still untitled. -/
def saveCurrentTabMessages (s : ChatWindowState) : ChatWindowState :=
  match s.chatTabs.find? (fun t => t.id == s.activeTabId) with
  | none => s
  | some tab =>
    let newTitle :=
      if tab.title == "New Chat" && decide (0 < s.messagesMirror.length) then
        match s.messagesMirror.find? (fun m => m.role == "user") with
        | some um =>
          um.content.take 30 ++
            (if decide (30 < um.content.length) then "..." else "")
        | none => tab.title
      else tab.title
    { s with chatTabs := s.chatTabs.map (fun t =>
        if t.id == s.activeTabId then
          { t with messages := s.messagesMirror, title := newTitle }
        else t) }

/-- `switchToTab` (`chat-window.js` lines 175–208): detach the previous
tab's parser (stream keeps running), save the mirror into the previous tab,
make the target active, load its messages into the mirror, and reattach a
bubble if the target is streaming in the background. -/
def switchToTab (s : ChatWindowState) (tabId : Nat) : ChatWindowState :=
  match s.chatTabs.find? (fun t => t.id == tabId) with
  | none => s
  | some _ =>
    let prev := streamOf s s.activeTabId
    let m1 := setStream s.tabStreamState s.activeTabId prev.detach
    let s1 :=
      if prev.isStreaming && prev.hasParser then { s with tabStreamState := m1 }
      else s
    let s2 := saveCurrentTabMessages s1
    let fallback : Tab := { id := tabId, title := "", messages := [] }
    let tabNow := ((s2.chatTabs.find? (fun t => t.id == tabId)).getD fallback)
    let s3 := { s2 with activeTabId := tabId, messagesMirror := tabNow.messages }
    let m3 := setStream s3.tabStreamState tabId (streamOf s3 tabId).reattach
    if (streamOf s3 tabId).isStreaming then { s3 with tabStreamState := m3 }
    else s3

/-- `clearMessages` (`chat-window.js` lines 897–919): cancel any ongoing
stream for the active tab, clear the mirror and the active tab's messages.
Returns the new state and whether an abort was invoked. -/
def clearMessages (s : ChatWindowState) : ChatWindowState × Bool :=
  let st := streamOf s s.activeTabId
  let st1 := { st with hasAbortController := false, hasParser := false, parserText := "", isStreaming := false, accumulatedText := "" }
  let m1 := setStream s.tabStreamState s.activeTabId st1
  let s1 := { s with tabStreamState := m1, messagesMirror := [] }
  let s2 := { s1 with chatTabs := s1.chatTabs.map (fun t =>
      if t.id == s1.activeTabId then { t with messages := [] } else t) }
  (s2, st.hasAbortController)

/-- `closeChatTab` (`chat-window.js` lines 210–234): cancel the tab's
outstanding stream first; then either clear (last remaining tab — closing is
refused) or remove the tab and, if it was active, switch to a neighbour.
Returns the new state and whether an abort was invoked. -/
def closeChatTab (s : ChatWindowState) (tabId : Nat) :
    ChatWindowState × Bool :=
  match s.chatTabs.findIdx? (fun t => t.id == tabId) with
  | none => (s, false)
  | some index =>
    let (s1, aborted) := cleanupTabStream s tabId
    if s1.chatTabs.length == 1 then
      let (s2, aborted2) := clearMessages s1
      let tabs3 :=
        match s2.chatTabs with
        | [] => []
        | t :: ts => { t with messages := [], title := "New Chat" } :: ts
      (({ s2 with chatTabs := tabs3 } : ChatWindowState), aborted || aborted2)
    else
      let s4 := { s1 with chatTabs := s1.chatTabs.eraseIdx index }
      if s4.activeTabId == tabId then
        let newIndex := min index (s4.chatTabs.length - 1)
        match s4.chatTabs[newIndex]? with
        | some t2 => (switchToTab s4 t2.id, aborted)
        | none => (s4, aborted)
      else (s4, aborted)

/-! ## Agent panel (the unnamed agent-panel module)

The single-conversation agent panel: module-level `messages`, `isStreaming`,
`currentAbortController`, `currentParser`, and its Action Dispatcher
(`handleToolResult` / `executeAction`). -/

structure PanelState where
  messages : List Message
  isStreaming : Bool
  hasAbortController : Bool
  hasParser : Bool
deriving DecidableEq

/-- The panel's `finalizeStreamingBubble(content)` (agent-panel lines
486–515): end the parser and append an assistant `Message` with the given
content — unconditionally, with no guard against a repeated call. -/
def panelFinalize (s : PanelState) (content : String) (now : Nat) :
    PanelState :=
  let msg : Message :=
    { id := now, content := content, role := "assistant", timestamp := now }
  { s with hasParser := false, messages := s.messages ++ [msg] }

/-- The panel's `sendAgentMessage.onDone` (agent-panel lines 668–676):
clear streaming state; finalize only when `fullText` is truthy. -/
def panelOnDone (s : PanelState) (fullText : String) (now : Nat) :
    PanelState :=
  let s1 := { s with isStreaming := false, hasAbortController := false }
  if fullText != "" then panelFinalize s1 fullText now else s1

/-- An invocation of an external collaborator by the Action Dispatcher. -/
inductive CollabCall where
  | createNewTab (title kind : String)
  | navigateToNote (noteId : Option Json)
  | openUrl (url : Option Json)

/-- `executeAction` (agent-panel lines 780–801): `open_note_tab` creates a
tab (when the Tabs collaborator is available) and navigates (when the
navigation collaborator is available); `open_url_tab` opens the URL; any
other action name does nothing. -/
def executeAction (hasTabs hasNav : Bool) (action : Json) : List CollabCall :=
  if jsonIs (action.getField "action") "open_note_tab" then
    if hasTabs then
      let title :=
        match action.getField "noteName" with
        | some v => if v.truthy then v.asText else "Note"
        | none => "Note"
      CollabCall.createNewTab title "objective" ::
        (if hasNav then [CollabCall.navigateToNote (action.getField "noteId")]
         else [])
    else []
  else if jsonIs (action.getField "action") "open_url_tab" then
    [CollabCall.openUrl (action.getField "url")]
  else []

/-- `handleToolResult` (agent-panel lines 763–775): a falsy `event.result`
is ignored; otherwise the result payload is parsed as JSON inside a
`try`/`catch` — parse failure, or a parsed value without a truthy `action`
field, is silently ignored. -/
def handleToolResult (parse : String → Option Json) (hasTabs hasNav : Bool)
    (ev : Json) : List CollabCall :=
  match ev.getField "result" with
  | none => []
  | some r =>
    if r.truthy then
      match parse r.asText with
      | none => []
      | some result =>
        match result.getField "action" with
        | some a => if a.truthy then executeAction hasTabs hasNav result else []
        | none => []
    else []

/-! ## Derived observations and concrete scenarios -/

/-- An assistant Message as constructed at finalize time
(`{ id: Date.now(), content, role: 'assistant', timestamp: new Date() }`). -/
def assistantMsg (content : String) (now : Nat) : Message :=
  { id := now, content := content, role := "assistant", timestamp := now }

/-- The messages of the tab with the given id (first match), if any. -/
def tabMessages (s : ChatWindowState) (tabId : Nat) : Option (List Message) :=
  (s.chatTabs.find? (fun t => t.id == tabId)).map (fun t => t.messages)

/-- Apply a sequence of deltas through `writeStreamingChunk`'s per-stream
effect, with a fixed visibility. -/
def writeAll (st : TabStream) (active : Bool) (ds : List String) : TabStream :=
  ds.foldl (fun a d => a.write active d) st

/-- The stream state right after `createStreamingBubble` at the very start
of a visible stream. -/
def streamStart : TabStream :=
  { hasAbortController := true, hasParser := true, parserText := "", isStreaming := true, accumulatedText := "" }

/-- The callback wiring of `sendAskMessage` (`chat-window.js` lines
764–796): `onChunk` creates the bubble on the first chunk then writes it,
`onComplete` runs the completion handler, `onError` clears the streaming
state (the error display is DOM-only). The `Bool` is the `bubbleCreated`
flag. -/
def applyOutEvent (tabId now : Nat) (acc : ChatWindowState × Bool)
    (e : OutEvent) : ChatWindowState × Bool :=
  match e with
  | .chunk c _ =>
    let s0 := if acc.2 then acc.1 else createStreamingBubble acc.1 tabId
    (writeStreamingChunk s0 tabId c, true)
  | .complete f => (onStreamDone acc.1 tabId f now, acc.2)
  | .errorOut _ =>
    let st := { streamOf acc.1 tabId with isStreaming := false, hasAbortController := false }
    ({ acc.1 with tabStreamState := setStream acc.1.tabStreamState tabId st },
      acc.2)

def runCallbacks (s : ChatWindowState) (tabId now : Nat)
    (outs : List OutEvent) : ChatWindowState :=
  (outs.foldl (applyOutEvent tabId now) (s, false)).1

/-- A fresh single-tab window. -/
def scenarioTab : Tab := { id := 1, title := "New Chat", messages := [] }

def scenarioState : ChatWindowState :=
  { chatTabs := [scenarioTab], activeTabId := 1, tabStreamState := []
    messagesMirror := [] }

/-- A Format B payload `\x7b"choices":[\x7b"delta":\x7b"content":t\x7d\x7d]\x7d`. -/
def fmtBPayload (t : String) : Json :=
  Json.obj [("choices", Json.arr [Json.obj
    [("delta", Json.obj [("content", Json.str t)])]])]

/-- The result of `JSON.parse` on the two Format B scenario payloads. -/
def parseFmtB : String → Option Json := fun s =>
  if s == "\x7b\"choices\":[\x7b\"delta\":\x7b\"content\":\"A\"\x7d\x7d]\x7d" then
    some (fmtBPayload "A")
  else if s == "\x7b\"choices\":[\x7b\"delta\":\x7b\"content\":\"B\"\x7d\x7d]\x7d" then
    some (fmtBPayload "B")
  else none

def fmtBLines : List String :=
  ["data: \x7b\"choices\":[\x7b\"delta\":\x7b\"content\":\"A\"\x7d\x7d]\x7d",
   "data: \x7b\"choices\":[\x7b\"delta\":\x7b\"content\":\"B\"\x7d\x7d]\x7d",
   "data: [DONE]"]

/-- A Format A `content_block_delta` payload carrying `t`. -/
def fmtAPayload (t : String) : Json :=
  Json.obj [("type", Json.str "content_block_delta"),
    ("delta", Json.obj [("text", Json.str t)])]

/-- A Format A `error` payload carrying the message `boom`. -/
def fmtAErrorPayload : Json :=
  Json.obj [("type", Json.str "error"),
    ("error", Json.obj [("message", Json.str "boom")])]

/-- The result of `JSON.parse` on the Format A scenario payloads; every
other input (such as `\x7bnot json`) fails to parse. -/
def parseFmtA : String → Option Json := fun s =>
  if s == "\x7b\"type\":\"content_block_delta\",\"delta\":\x7b\"text\":\"A\"\x7d\x7d" then
    some (fmtAPayload "A")
  else if s == "\x7b\"type\":\"content_block_delta\",\"delta\":\x7b\"text\":\"B\"\x7d\x7d" then
    some (fmtAPayload "B")
  else if s == "\x7b\"type\":\"error\",\"error\":\x7b\"message\":\"boom\"\x7d\x7d" then
    some fmtAErrorPayload
  else none

def fmtALineA : String :=
  "data: \x7b\"type\":\"content_block_delta\",\"delta\":\x7b\"text\":\"A\"\x7d\x7d"

def fmtALineB : String :=
  "data: \x7b\"type\":\"content_block_delta\",\"delta\":\x7b\"text\":\"B\"\x7d\x7d"

def fmtAErrorLine : String :=
  "data: \x7b\"type\":\"error\",\"error\":\x7b\"message\":\"boom\"\x7d\x7d"

def malformedLine : String := "data: \x7bnot json"

/-- A single-tab window with a stream mid-flight, used as the double-call
input for `finalizeStreamingBubble`. -/
def dupStream : TabStream :=
  { hasAbortController := true, hasParser := true, parserText := "hi", isStreaming := true, accumulatedText := "hi" }

def dupState : ChatWindowState :=
  { chatTabs := [{ id := 1, title := "T", messages := [] }]
    activeTabId := 1
    tabStreamState := [(1, dupStream)]
    messagesMirror := [] }

/-- The parsed `open_note_tab` tool-result payload. -/
def noteActionJson : Json :=
  Json.obj [("action", Json.str "open_note_tab"), ("noteId", Json.str "n1"),
    ("noteName", Json.str "My Note")]

/-- The parsed `open_url_tab` tool-result payload. -/
def urlActionJson : Json :=
  Json.obj [("action", Json.str "open_url_tab"),
    ("url", Json.str "https://x.test")]

/-- The result of `JSON.parse` on the two recognized action payloads. -/
def parseActions : String → Option Json := fun s =>
  if s == "\x7b\"action\":\"open_note_tab\",\"noteId\":\"n1\",\"noteName\":\"My Note\"\x7d" then
    some noteActionJson
  else if s == "\x7b\"action\":\"open_url_tab\",\"url\":\"https://x.test\"\x7d" then
    some urlActionJson
  else none

/-- A `tool_result` agent event whose result is the `open_note_tab` action
payload. -/
def noteToolResultEvent : Json :=
  Json.obj [("type", Json.str "tool_result"),
    ("result", Json.str "\x7b\"action\":\"open_note_tab\",\"noteId\":\"n1\",\"noteName\":\"My Note\"\x7d")]

/-- A two-tab window whose first tab has a live stream, used to exercise
`closeChatTab`. -/
def closeScenario : ChatWindowState :=
  { chatTabs := [{ id := 1, title := "A", messages := [] }, { id := 2, title := "B", messages := [] }]
    activeTabId := 1
    tabStreamState := [(1, dupStream)]
    messagesMirror := [] }

/-! ## Theorems -/

theorem splitNL_ne_nil (s : List Char) : splitNL s ≠ [] := by
  cases s with
  | nil => simp [splitNL]
  | cons c rest =>
    simp only [splitNL]
    rcases h : splitNL rest with _ | ⟨l, ls⟩
    · simp
    · by_cases hc : c = '\n' <;> simp [hc]

/-- `scanLines` computes exactly the (all-but-last, last) decomposition of
`splitNL`. -/
theorem scanLines_eq_splitNL (s : List Char) :
    scanLines s = ((splitNL s).dropLast, (splitNL s).getLastD []) := by
  induction s with
  | nil => simp [scanLines, splitNL]
  | cons c rest ih =>
    simp only [scanLines, splitNL]
    cases h : splitNL rest with
    | nil => exact absurd h (splitNL_ne_nil rest)
    | cons l ls =>
      rw [h] at ih
      by_cases hc : c = '\n'
      · subst hc
        simp only [if_pos rfl, ih]
        cases ls <;> simp [List.getLastD]
      · simp only [if_neg hc, ih]
        cases ls with
        | nil => simp [List.getLastD]
        | cons l2 ls2 => simp [List.getLastD]

theorem scanLines_append (x y : List Char) :
    scanLines (x ++ y) = scanCombine (scanLines x) (scanLines y) := by
  induction x with
  | nil =>
    rcases hy : scanLines y with ⟨ls2, r2⟩
    cases ls2 <;> simp [scanLines, scanCombine, hy]
  | cons c x' ih =>
    rcases h1 : scanLines x' with ⟨ls1, r1⟩
    rcases h2 : scanLines y with ⟨ls2, r2⟩
    rw [h1, h2] at ih
    by_cases hc : c = '\n'
    · subst hc
      cases ls1 <;> cases ls2 <;>
        simp [scanLines, scanCombine, ih, h1]
    · cases ls1 <;> cases ls2 <;>
        simp [scanLines, scanCombine, ih, h1, hc]

/-- A string without newlines scans to no complete lines and itself as
residual. -/
theorem scanLines_no_newline (s : List Char) (h : '\n' ∉ s) :
    scanLines s = ([], s) := by
  induction s with
  | nil => simp [scanLines]
  | cons c rest ih =>
    simp only [List.mem_cons, not_or] at h
    have hc : ¬ c = '\n' := fun hh => h.1 hh.symm
    simp [scanLines, ih h.2, hc]

/-- The residual left by a scan never contains a newline. -/
theorem scanLines_residual_no_newline (s : List Char) :
    '\n' ∉ (scanLines s).2 := by
  induction s with
  | nil => simp [scanLines]
  | cons c rest ih =>
    simp only [scanLines]
    by_cases hc : c = '\n'
    · simpa [hc] using ih
    · rcases h1 : scanLines rest with ⟨ls1, r1⟩
      rw [h1] at ih
      cases ls1 with
      | nil =>
        simp only [if_neg hc]
        simp only [List.mem_cons, not_or]
        exact ⟨fun h => hc h.symm, ih⟩
      | cons l ls => simpa [hc] using ih

theorem feedFragment_eq_scan (buf frag : List Char) :
    feedFragment buf frag =
      ((scanLines (buf ++ frag)).2, (scanLines (buf ++ frag)).1) := by
  simp [feedFragment, scanLines_eq_splitNL]

/-- Running the read loop over any fragment sequence is the same as one scan
of the concatenated input, provided the starting residual has no newline. -/
theorem decodeFragments_eq_scan (fs : List (List Char)) (buf : List Char)
    (h : '\n' ∉ buf) :
    decodeFragments buf fs =
      ((scanLines (buf ++ fs.flatten)).2, (scanLines (buf ++ fs.flatten)).1) := by
  induction fs generalizing buf with
  | nil => simp [decodeFragments, scanLines_no_newline buf h]
  | cons f fs ih =>
    simp only [decodeFragments, feedFragment_eq_scan, List.flatten_cons]
    have hres : '\n' ∉ (scanLines (buf ++ f)).2 :=
      scanLines_residual_no_newline (buf ++ f)
    rw [ih _ hres]
    have hassoc : buf ++ (f ++ fs.flatten) = (buf ++ f) ++ fs.flatten := by
      simp
    rw [hassoc, scanLines_append (buf ++ f) fs.flatten,
      scanLines_append (scanLines (buf ++ f)).2 fs.flatten,
      scanLines_no_newline _ hres]
    rcases h1 : scanLines (buf ++ f) with ⟨ls1, r1⟩
    rcases h2 : scanLines fs.flatten with ⟨ls2, r2⟩
    cases ls2 <;> simp [scanCombine]

theorem flatten_map_singleton (s : List Char) :
    (s.map (fun c => [c])).flatten = s := by
  induction s with
  | nil => simp
  | cons c rest ih => simp [ih]

/-- C2: the wire frame decoder (append incoming fragment to a single residual
buffer, split on newline, deliver every complete line, keep the final
incomplete line as the new residual) yields the same ordered line sequence —
and hence the same ordered sequence of complete `data: `-prefixed frames —
whether the input is delivered as one single fragment, as any sequence of
fragments, or split at every possible byte offset. -/
theorem frame_boundary_independence (fs : List (List Char)) :
    (decodeFragments [] fs).2 = (decodeFragments [] [fs.flatten]).2 ∧
    dataFrames (decodeFragments [] fs).2 =
      dataFrames (decodeFragments [] [fs.flatten]).2 ∧
    (decodeFragments [] (fs.flatten.map (fun c => [c]))).2 =
      (decodeFragments [] [fs.flatten]).2 := by
  have hone : ∀ gs : List (List Char),
      (decodeFragments [] gs).2 = (scanLines gs.flatten).1 := by
    intro gs
    rw [decodeFragments_eq_scan gs [] (by simp)]
    simp
  refine ⟨?_, ?_, ?_⟩
  · rw [hone fs, hone [fs.flatten]]
    simp
  · rw [hone fs, hone [fs.flatten]]
    simp
  · rw [hone (fs.flatten.map (fun c => [c])), hone [fs.flatten],
      flatten_map_singleton]
    simp

/-- A Format A frame either leaves the state untouched, appends one truthy
delta text, or completes. -/
theorem anthropicEvent_cases (ev : Json) (full : String) :
    anthropicEvent ev full = (full, [], false) ∨
    (∃ t, anthropicEvent ev full = (full ++ t, [.chunk t (full ++ t)], false)) ∨
    anthropicEvent ev full = (full, [.complete full], true) := by
  unfold anthropicEvent
  split
  · split
    · split
      · right; left; exact ⟨_, rfl⟩
      · left; rfl
    · left; rfl
  · split
    · right; right; rfl
    · left; rfl

/-- Accumulation invariant of the Format A loop: the final accumulated text
is the starting text extended by the concatenation of all emitted delta
texts, and every emitted callback carries the running accumulated text. -/
theorem anthropicRun_accum (parse : String → Option Json)
    (lines : List String) : ∀ (full : String),
    (anthropicRun parse lines full).1 =
      full ++ strConcat (chunkTexts (anthropicRun parse lines full).2) ∧
    accumOK full (anthropicRun parse lines full).2 = true := by
  induction lines with
  | nil => intro full; simp [anthropicRun, chunkTexts, accumOK, strConcat]
  | cons line rest ih =>
    intro full
    simp only [anthropicRun]
    by_cases h1 : jsStartsWith line "data: " = true
    · simp only [h1, if_true]
      by_cases h2 : (line.drop 6 == "[DONE]") = true
      · simp only [h2, if_true]
        exact ih full
      · simp only [eq_false_of_ne_true h2, Bool.false_eq_true, if_false]
        cases hp : parse (line.drop 6) with
        | none => exact ih full
        | some ev =>
          simp only []
          rcases anthropicEvent_cases ev full with he | ⟨t, he⟩ | he <;>
            rw [he]
          · simpa using ih full
          · have h := ih (full ++ t)
            simp only [List.nil_append, chunkTexts, accumOK, strConcat]
            refine ⟨?_, ?_⟩
            · rw [h.1, String.append_assoc]; simp
            · simp [h.2]
          · simp [chunkTexts, accumOK, strConcat]
    · simp only [eq_false_of_ne_true h1, Bool.false_eq_true, if_false]
      exact ih full

/-- Accumulation invariant of the Format B loop. -/
theorem openRouterRun_accum (parse : String → Option Json)
    (lines : List String) : ∀ (full : String),
    (openRouterRun parse lines full).1 =
      full ++ strConcat (chunkTexts (openRouterRun parse lines full).2) ∧
    accumOK full (openRouterRun parse lines full).2 = true := by
  induction lines with
  | nil => intro full; simp [openRouterRun, chunkTexts, accumOK, strConcat]
  | cons line rest ih =>
    intro full
    simp only [openRouterRun]
    by_cases h1 : jsStartsWith line "data: " = true
    · simp only [h1, if_true]
      by_cases h2 : (line.drop 6 == "[DONE]") = true
      · simp [h2, chunkTexts, accumOK, strConcat]
      · simp only [eq_false_of_ne_true h2, Bool.false_eq_true, if_false]
        cases hp : parse (line.drop 6) with
        | none => exact ih full
        | some ev =>
          simp only []
          cases hcontent : (((ev.getField "choices").bind Json.idx0).bind
              (fun c => c.getField "delta")).bind
              (fun d => d.getField "content") with
          | none => simpa using ih full
          | some content =>
            simp only []
            by_cases ht : content.truthy = true
            · simp only [ht, if_true]
              have h := ih (full ++ content.asText)
              simp only [chunkTexts, accumOK, strConcat]
              refine ⟨?_, ?_⟩
              · rw [h.1, String.append_assoc]
              · simp [h.2]
            · simp only [eq_false_of_ne_true ht, Bool.false_eq_true, if_false]
              exact ih full
    · simp only [eq_false_of_ne_true h1, Bool.false_eq_true, if_false]
      exact ih full

/-- C1: for every sequence of text-delta events consumed during one
streaming request — Format A `content_block_delta` deltas or Format B
`choices[0].delta.content` fragments — the accumulated text at every point
equals the concatenation of all delta texts received so far, in order; in
particular a Format B stream emitting "A" then "B" then `[DONE]` finalizes
a Message whose content is exactly "AB". -/
theorem accumulation_correctness :
    (∀ (parse : String → Option Json) (lines : List String) (full : String),
      (anthropicRun parse lines full).1 =
        full ++ strConcat (chunkTexts (anthropicRun parse lines full).2) ∧
      accumOK full (anthropicRun parse lines full).2 = true) ∧
    (∀ (parse : String → Option Json) (lines : List String) (full : String),
      (openRouterRun parse lines full).1 =
        full ++ strConcat (chunkTexts (openRouterRun parse lines full).2) ∧
      accumOK full (openRouterRun parse lines full).2 = true) ∧
    openRouterRun parseFmtB fmtBLines "" =
      ("AB", [.chunk "A" "A", .chunk "B" "AB", .complete "AB"]) ∧
    tabMessages (runCallbacks (startStream scenarioState 1) 1 9
        (openRouterRun parseFmtB fmtBLines "").2) 1 =
      some [{ id := 9, content := "AB", role := "assistant", timestamp := 9 }] := by
  exact ⟨anthropicRun_accum, openRouterRun_accum, rfl, rfl⟩

/-- C5 (code bug): a Format A `error` frame is not surfaced to the user:
the `throw new Error(event.error?.message)` at `markdown.js` line 561 is
intercepted by the enclosing `catch (parseError)` (line 563), so `onError`
is never invoked for it, the stream continues, and the partial text is
committed by `onComplete` — here a delta "A" followed by an error frame
yields a completed "A" and no error callback. -/
theorem error_frame_swallowed :
    anthropicRun parseFmtA [fmtALineA, fmtAErrorLine] "" =
      ("A", [.chunk "A" "A", .complete "A"]) ∧
    ((anthropicRun parseFmtA [fmtALineA, fmtAErrorLine] "").2.all
      (fun e => match e with
        | .errorOut _ => false
        | _ => true)) = true := by
  exact ⟨rfl, rfl⟩

/-- A `data: ` line whose payload fails to parse (and is not the `[DONE]`
sentinel) is transparent to the Format A loop wherever it occurs. -/
theorem anthropicRun_skips_malformed (parse : String → Option Json)
    (line : String) (h1 : jsStartsWith line "data: " = true)
    (h2 : (line.drop 6 == "[DONE]") = false)
    (h3 : parse (line.drop 6) = none) :
    ∀ (pre post : List String) (full : String),
      anthropicRun parse (pre ++ line :: post) full =
        anthropicRun parse (pre ++ post) full := by
  intro pre
  induction pre with
  | nil =>
    intro post full
    simp only [List.nil_append, anthropicRun, h1, if_true, h2,
      Bool.false_eq_true, if_false, h3]
  | cons p pre' ih =>
    intro post full
    simp only [List.cons_append, anthropicRun]
    by_cases hp1 : jsStartsWith p "data: " = true
    · simp only [hp1, if_true]
      by_cases hp2 : (p.drop 6 == "[DONE]") = true
      · simp only [hp2, if_true]
        exact ih post full
      · simp only [eq_false_of_ne_true hp2, Bool.false_eq_true, if_false]
        cases hpp : parse (p.drop 6) with
        | none => exact ih post full
        | some ev =>
          simp only []
          rcases anthropicEvent_cases ev full with he | ⟨t, he⟩ | he <;> rw [he]
          · simp only [List.append_eq]
            rw [ih post full]
          · simp only [List.append_eq]
            rw [ih post (full ++ t)]
    · simp only [eq_false_of_ne_true hp1, Bool.false_eq_true, if_false]
      exact ih post full

/-- C7: a frame whose `data:` payload fails to parse as JSON and is not the
`[DONE]` sentinel is dropped and never aborts the stream: dropping it leaves
the whole run unchanged, and in the concrete scenario a malformed line
between two valid delta frames still accumulates exactly the two deltas. -/
theorem parse_failure_recovery :
    (∀ (parse : String → Option Json) (line : String),
      jsStartsWith line "data: " = true →
      (line.drop 6 == "[DONE]") = false →
      parse (line.drop 6) = none →
      ∀ (pre post : List String) (full : String),
        anthropicRun parse (pre ++ line :: post) full =
          anthropicRun parse (pre ++ post) full) ∧
    anthropicRun parseFmtA [fmtALineA, malformedLine, fmtALineB] "" =
      ("AB", [.chunk "A" "A", .chunk "B" "AB", .complete "AB"]) := by
  exact ⟨fun parse line h1 h2 h3 =>
    anthropicRun_skips_malformed parse line h1 h2 h3, rfl⟩

/-- Witness for C7 at a concrete malformed line. -/
theorem parse_failure_recovery_witness :
    anthropicRun (fun _ => none) ([] ++ malformedLine :: []) "" =
      anthropicRun (fun _ => none) ([] ++ []) "" :=
  parse_failure_recovery.1 (fun _ => none) malformedLine (by decide)
    (by decide) rfl [] [] ""

theorem lookupStream_setStream_self (m : List (Nat × TabStream)) (k : Nat)
    (v : TabStream) : lookupStream (setStream m k v) k = some v := by
  induction m with
  | nil => simp [setStream, lookupStream]
  | cons e rest ih =>
    simp only [setStream]
    by_cases he : (e.1 == k) = true
    · simp [he, lookupStream]
    · simp only [he, Bool.false_eq_true, if_false]
      simpa [lookupStream, List.find?_cons, he] using ih

theorem lookupStream_setStream_ne (m : List (Nat × TabStream)) (k k' : Nat)
    (v : TabStream) (h : (k' == k) = false) :
    lookupStream (setStream m k v) k' = lookupStream m k' := by
  have hne : k' ≠ k := by simpa using h
  have hkk : (k == k') = false := by simpa using fun hh => hne hh.symm
  induction m with
  | nil => simp [setStream, lookupStream, hkk]
  | cons e rest ih =>
    simp only [setStream]
    by_cases he : (e.1 == k) = true
    · have hek : e.1 = k := by simpa using he
      have hek' : (e.1 == k') = false := by
        simpa [hek] using fun hh => hne hh.symm
      simp [he, lookupStream, List.find?_cons, hkk, hek']
    · simp only [he, Bool.false_eq_true, if_false]
      by_cases he2 : (e.1 == k') = true
      · simp [lookupStream, List.find?_cons, he2]
      · simpa [lookupStream, List.find?_cons, he2] using ih

theorem lookupStream_removeStream_self (m : List (Nat × TabStream)) (k : Nat) :
    lookupStream (removeStream m k) k = none := by
  induction m with
  | nil => simp [removeStream, lookupStream]
  | cons e rest ih =>
    simp only [removeStream, List.filter]
    by_cases he : (e.1 == k) = true
    · simp only [bne, he, Bool.not_true, removeStream] at ih ⊢
      exact ih
    · simp only [bne, he, Bool.not_false, removeStream] at ih ⊢
      simp [lookupStream, List.find?_cons, he] at ih ⊢
      try exact ih

/-- `cleanupTabStream` in closed form: remove the entry, report whether an
abort controller was live. -/
theorem cleanupTabStream_eq (s : ChatWindowState) (tabId : Nat) :
    cleanupTabStream s tabId =
      ({ s with tabStreamState := removeStream s.tabStreamState tabId },
        (streamOf s tabId).hasAbortController) := by
  unfold cleanupTabStream streamOf
  cases h : lookupStream s.tabStreamState tabId <;> simp [h, TabStream.initial]

/-- C4: after a StreamSession's cancellation (abort), the session has no
stream entry — so the observed stream state is inactive with empty
accumulated text — the cleanup mutates no tab's `messages` and not the
mirror, the abort is invoked exactly when a controller was live, and an
`AbortError` is never reported as an error (neither by the sender's catch
clause nor by the agent loop's catch clause, which also appends nothing). -/
theorem cancellation_finality :
    (∀ (s : ChatWindowState) (tabId : Nat),
      lookupStream (cleanupTabStream s tabId).1.tabStreamState tabId = none ∧
      (streamOf (cleanupTabStream s tabId).1 tabId).isStreaming = false ∧
      (streamOf (cleanupTabStream s tabId).1 tabId).accumulatedText = "" ∧
      (cleanupTabStream s tabId).1.chatTabs = s.chatTabs ∧
      (cleanupTabStream s tabId).1.messagesMirror = s.messagesMirror ∧
      (cleanupTabStream s tabId).2 = (streamOf s tabId).hasAbortController) ∧
    (∀ msg : String, anthropicCatch "AbortError" msg = []) ∧
    (∀ st : TabStream, (agentCatchClause st "AbortError").2 = false ∧
      (agentCatchClause st "AbortError").1.isStreaming = false) := by
  refine ⟨fun s tabId => ?_, fun msg => by simp [anthropicCatch],
    fun st => by simp [agentCatchClause]⟩
  rw [cleanupTabStream_eq]
  refine ⟨lookupStream_removeStream_self _ _, ?_, ?_, rfl, rfl, rfl⟩ <;>
    simp [streamOf, lookupStream_removeStream_self, TabStream.initial]

/-- Updating the tabs whose id matches commutes with finding by that id. -/
theorem find_update_tabs (l : List Tab) (tabId : Nat) (upd : Tab → Tab)
    (hid : ∀ t, (upd t).id = t.id) :
    (l.map (fun t => if t.id == tabId then upd t else t)).find?
        (fun t => t.id == tabId) =
      (l.find? (fun t => t.id == tabId)).map upd := by
  induction l with
  | nil => simp
  | cons t rest ih =>
    by_cases ht : (t.id == tabId) = true
    · have hu : ((upd t).id == tabId) = true := by rw [hid]; exact ht
      simp only [List.map_cons, ht, if_true, List.find?_cons, hu]
      simp
    · have hkeep : ((if (t.id == tabId) = true then upd t else t).id == tabId)
          = false := by
        simp only [ht, Bool.false_eq_true, if_false]
      simp only [List.map_cons, List.find?_cons, hkeep, ht,
        Bool.false_eq_true, if_false]
      exact ih

/-- Each `finalizeStreamingBubble` call appends exactly one assistant
Message to the tab's messages. -/
theorem finalize_tabMessages (s : ChatWindowState) (tabId : Nat)
    (content : String) (now : Nat) (ms : List Message)
    (h : tabMessages s tabId = some ms) :
    tabMessages (finalizeStreamingBubble s tabId content now) tabId =
      some (ms ++ [assistantMsg content now]) := by
  unfold tabMessages at h
  obtain ⟨t, hfind, hms⟩ : ∃ t, s.chatTabs.find? (fun t => t.id == tabId) =
      some t ∧ t.messages = ms := by
    cases hf : s.chatTabs.find? (fun t => t.id == tabId) with
    | none => rw [hf] at h; simp at h
    | some t => exact ⟨t, rfl, by rw [hf] at h; simpa using h⟩
  have hupd := find_update_tabs s.chatTabs tabId
    (fun t => { t with messages := t.messages ++ [assistantMsg content now] })
    (fun t => rfl)
  have hres : (finalizeStreamingBubble s tabId content now).chatTabs =
      s.chatTabs.map (fun t => if t.id == tabId then
        { t with messages := t.messages ++ [assistantMsg content now] }
        else t) := by
    unfold finalizeStreamingBubble
    simp only [hfind]
    by_cases hact : (tabId == s.activeTabId) = true <;>
      simp [hact, assistantMsg]
  unfold tabMessages
  rw [hres, hupd, hfind]
  simp [hms]

/-- C6 counterexample: calling `finalizeStreamingBubble` twice on the same
mid-stream tab appends two assistant Messages — a duplicate — so the second
call does not have the same effect as one call. -/
theorem finalize_twice_duplicates :
    tabMessages (finalizeStreamingBubble dupState 1 "hi" 5) 1 =
      some [assistantMsg "hi" 5] ∧
    tabMessages (finalizeStreamingBubble
        (finalizeStreamingBubble dupState 1 "hi" 5) 1 "hi" 6) 1 =
      some [assistantMsg "hi" 5, assistantMsg "hi" 6] ∧
    (((tabMessages (finalizeStreamingBubble
          (finalizeStreamingBubble dupState 1 "hi" 5) 1 "hi" 6) 1).map
        List.length ==
      (tabMessages (finalizeStreamingBubble dupState 1 "hi" 5) 1).map
        List.length)) = false := by
  exact ⟨rfl, rfl, rfl⟩

/-- C6 amended: `finalizeStreamingBubble` appends exactly one assistant
Message per call; calling it twice therefore appends two Messages (the
second a duplicate), not one — finalize is not idempotent. -/
theorem finalize_appends_per_call (s : ChatWindowState) (tabId : Nat)
    (content : String) (n1 n2 : Nat) (ms : List Message)
    (h : tabMessages s tabId = some ms) :
    tabMessages (finalizeStreamingBubble s tabId content n1) tabId =
      some (ms ++ [assistantMsg content n1]) ∧
    tabMessages (finalizeStreamingBubble
        (finalizeStreamingBubble s tabId content n1) tabId content n2) tabId =
      some ((ms ++ [assistantMsg content n1]) ++ [assistantMsg content n2]) := by
  have h1 := finalize_tabMessages s tabId content n1 ms h
  exact ⟨h1, finalize_tabMessages _ tabId content n2 _ h1⟩

/-- C10 (implicit): when a stream completes normally (`done` event or end
of input) with empty accumulated text, no assistant Message is appended and
the streaming flag is simply cleared; an assistant Message is appended
exactly when the completed text is non-empty. Holds in both the chat window
and the agent panel. -/
theorem empty_completion_appends_nothing :
    (∀ (s : ChatWindowState) (tabId now : Nat),
      (onStreamDone s tabId "" now).chatTabs = s.chatTabs ∧
      (onStreamDone s tabId "" now).messagesMirror = s.messagesMirror ∧
      (streamOf (onStreamDone s tabId "" now) tabId).isStreaming = false) ∧
    (∀ (s : ChatWindowState) (tabId now : Nat) (c : String)
        (ms : List Message), c ≠ "" → tabMessages s tabId = some ms →
      tabMessages (onStreamDone s tabId c now) tabId =
        some (ms ++ [assistantMsg c now])) ∧
    (∀ (s : PanelState) (now : Nat),
      panelOnDone s "" now =
        { s with isStreaming := false, hasAbortController := false }) ∧
    (∀ (s : PanelState) (now : Nat) (c : String), c ≠ "" →
      (panelOnDone s c now).messages = s.messages ++ [assistantMsg c now] ∧
      (panelOnDone s c now).isStreaming = false) := by
  refine ⟨fun s tabId now => ⟨rfl, rfl, ?_⟩,
    fun s tabId now c ms hc h => ?_, fun s now => ?_, fun s now c hc => ?_⟩
  · simp [onStreamDone, streamOf, lookupStream_setStream_self]
  · have hbc : (c != "") = true := by simpa using hc
    simp only [onStreamDone, hbc, if_true]
    exact finalize_tabMessages _ tabId c now ms h
  · simp [panelOnDone]
  · have hbc : (c != "") = true := by simpa using hc
    simp [panelOnDone, hbc, panelFinalize, assistantMsg]

/-- Witness for C10 at a concrete state and non-empty text. -/
theorem empty_completion_appends_nothing_witness :
    tabMessages (onStreamDone scenarioState 1 "hey" 7) 1 =
      some ([] ++ [assistantMsg "hey" 7]) :=
  empty_completion_appends_nothing.2.1 scenarioState 1 7 "hey" []
    (by decide) rfl

theorem strConcat_append (xs ys : List String) :
    strConcat (xs ++ ys) = strConcat xs ++ strConcat ys := by
  induction xs with
  | nil => simp [strConcat]
  | cons x xs ih => simp [strConcat, ih, String.append_assoc]

/-- `writeStreamingChunk` always accumulates, in order, and never touches
the flags. -/
theorem writeAll_fields (active : Bool) (ds : List String) :
    ∀ st : TabStream,
      (writeAll st active ds).accumulatedText =
        st.accumulatedText ++ strConcat ds ∧
      (writeAll st active ds).hasParser = st.hasParser ∧
      (writeAll st active ds).isStreaming = st.isStreaming ∧
      (writeAll st active ds).hasAbortController = st.hasAbortController := by
  induction ds with
  | nil => intro st; simp [writeAll, strConcat]
  | cons d ds ih =>
    intro st
    have hw : (st.write active d).accumulatedText =
          st.accumulatedText ++ d ∧
        (st.write active d).hasParser = st.hasParser ∧
        (st.write active d).isStreaming = st.isStreaming ∧
        (st.write active d).hasAbortController = st.hasAbortController := by
      unfold TabStream.write
      by_cases hc : (st.hasParser && active) = true <;> simp [hc]
    have h := ih (st.write active d)
    simp only [writeAll, List.foldl_cons] at h ⊢
    refine ⟨?_, ?_, ?_, ?_⟩
    · rw [h.1, hw.1, String.append_assoc]
      simp [strConcat]
    · rw [h.2.1, hw.2.1]
    · rw [h.2.2.1, hw.2.2.1]
    · rw [h.2.2.2, hw.2.2.2]

/-- With a parser attached and the tab visible, every delta is also written
to the parser, in order. -/
theorem writeAll_parser_attached (ds : List String) :
    ∀ st : TabStream, st.hasParser = true →
      (writeAll st true ds).parserText = st.parserText ++ strConcat ds := by
  induction ds with
  | nil => intro st _; simp [writeAll, strConcat]
  | cons d ds ih =>
    intro st h
    have hw : (st.write true d).parserText = st.parserText ++ d ∧
        (st.write true d).hasParser = true := by
      unfold TabStream.write
      simp [h]
    simp only [writeAll, List.foldl_cons]
    have h2 := ih (st.write true d) hw.2
    simp only [writeAll] at h2
    rw [h2, hw.1, String.append_assoc]
    simp [strConcat]

/-- While detached (tab not visible), deltas never reach the parser. -/
theorem writeAll_detached_sink (ds : List String) :
    ∀ st : TabStream, (writeAll st false ds).parserText = st.parserText := by
  induction ds with
  | nil => intro st; simp [writeAll]
  | cons d ds ih =>
    intro st
    have hw : (st.write false d).parserText = st.parserText := by
      unfold TabStream.write
      simp
    simp only [writeAll, List.foldl_cons]
    have h2 := ih (st.write false d)
    simp only [writeAll] at h2
    rw [h2, hw]

/-- Reattaching replays exactly the accumulated text into the fresh parser
and leaves the accumulated text unchanged. -/
theorem reattach_fields (st : TabStream) :
    (st.reattach).parserText = st.accumulatedText ∧
    (st.reattach).hasParser = true ∧
    (st.reattach).accumulatedText = st.accumulatedText := by
  unfold TabStream.reattach
  by_cases hc : (st.accumulatedText != "") = true
  · simp [hc]
  · have he : st.accumulatedText = "" := by simpa using hc
    simp [hc, he]

/-- C3: if the render sink is detached mid-stream (deltas `ds2` keep
accumulating in the background) and a new sink is attached later by
switching back (replaying `accumulatedText` once), the new sink's content
after the remaining deltas `ds3` equals what a sink attached from the start
of the stream would have received, and the accumulated text agrees too. -/
theorem reattachment_fidelity (ds1 ds2 ds3 : List String) :
    (writeAll ((writeAll ((writeAll streamStart true ds1).detach) false
        ds2).reattach) true ds3).parserText =
      (writeAll streamStart true (ds1 ++ ds2 ++ ds3)).parserText ∧
    (writeAll ((writeAll ((writeAll streamStart true ds1).detach) false
        ds2).reattach) true ds3).accumulatedText =
      (writeAll streamStart true (ds1 ++ ds2 ++ ds3)).accumulatedText := by
  have hR := reattach_fields (writeAll ((writeAll streamStart true ds1).detach)
    false ds2)
  have hDacc : ((writeAll streamStart true ds1).detach).accumulatedText =
      (writeAll streamStart true ds1).accumulatedText := rfl
  have f1 := writeAll_fields true ds1 streamStart
  have f2 := writeAll_fields false ds2 ((writeAll streamStart true ds1).detach)
  have f3 := writeAll_fields true ds3 ((writeAll ((writeAll streamStart true
    ds1).detach) false ds2).reattach)
  have p3 := writeAll_parser_attached ds3 ((writeAll ((writeAll streamStart
    true ds1).detach) false ds2).reattach) hR.2.1
  have pB := writeAll_parser_attached (ds1 ++ ds2 ++ ds3) streamStart rfl
  have fB := writeAll_fields true (ds1 ++ ds2 ++ ds3) streamStart
  constructor
  · rw [p3, hR.1, f2.1, hDacc, f1.1, pB]
    show ((streamStart.accumulatedText ++ strConcat ds1) ++ strConcat ds2) ++
        strConcat ds3 = streamStart.parserText ++ strConcat (ds1 ++ ds2 ++ ds3)
    simp [streamStart, strConcat_append, String.append_assoc]
  · rw [f3.1, hR.2.2, f2.1, hDacc, f1.1, fB.1]
    show ((streamStart.accumulatedText ++ strConcat ds1) ++ strConcat ds2) ++
        strConcat ds3 =
      streamStart.accumulatedText ++ strConcat (ds1 ++ ds2 ++ ds3)
    simp [streamStart, strConcat_append, String.append_assoc]

/-- After erasing the first tab whose id matches, no remaining tab matches
(ids are unique). -/
theorem eraseIdx_no_match (tabId : Nat) :
    ∀ (l : List Tab) (idx : Nat),
      l.findIdx? (fun t => t.id == tabId) = some idx →
      (l.map Tab.id).Nodup →
      ∀ t ∈ l.eraseIdx idx, (t.id == tabId) = false := by
  intro l
  induction l with
  | nil => intro idx h; simp [List.findIdx?] at h
  | cons x xs ih =>
    intro idx h hnodup t ht
    rw [List.findIdx?_cons, List.findIdx?_succ] at h
    simp only [List.map_cons, List.nodup_cons] at hnodup
    by_cases hx : (x.id == tabId) = true
    · rw [if_pos hx] at h
      have hidx0 : 0 = idx := by simpa using h
      subst hidx0
      rw [List.eraseIdx_cons_zero] at ht
      have hxid : x.id = tabId := by simpa using hx
      cases hbt : (t.id == tabId) with
      | false => rfl
      | true =>
        have htid : t.id = tabId := by simpa using hbt
        exact absurd (by rw [hxid, ← htid]; exact List.mem_map_of_mem Tab.id ht)
          hnodup.1
    · rw [if_neg hx] at h
      obtain ⟨j, hj, hidx⟩ : ∃ j, xs.findIdx? (fun t => t.id == tabId) =
          some j ∧ idx = j + 1 := by
        cases hf : xs.findIdx? (fun t => t.id == tabId) with
        | none =>
          rw [hf] at h
          exact absurd h (by simp)
        | some j =>
          rw [hf] at h
          exact ⟨j, rfl, by simpa using h.symm⟩
      subst hidx
      rw [List.eraseIdx_cons_succ] at ht
      rcases List.mem_cons.mp ht with rfl | ht2
      · simpa using hx
      · exact ih j hj hnodup.2 t ht2

theorem saveCurrentTabMessages_of_none (s : ChatWindowState)
    (h : s.chatTabs.find? (fun t => t.id == s.activeTabId) = none) :
    saveCurrentTabMessages s = s := by
  unfold saveCurrentTabMessages
  rw [h]

/-- Switching tabs when the previous tab's stream is not running: the tab
list is untouched, and so is every stream entry other than the target's. -/
theorem switchToTab_of_inactive_prev (s : ChatWindowState) (tid : Nat)
    (hprev : (streamOf s s.activeTabId).isStreaming = false)
    (hsave : s.chatTabs.find? (fun t => t.id == s.activeTabId) = none) :
    (switchToTab s tid).chatTabs = s.chatTabs ∧
    ∀ k, (k == tid) = false →
      lookupStream (switchToTab s tid).tabStreamState k =
        lookupStream s.tabStreamState k := by
  unfold switchToTab
  cases hf : s.chatTabs.find? (fun t => t.id == tid) with
  | none => exact ⟨rfl, fun k _ => rfl⟩
  | some tb =>
    simp only [hprev, Bool.false_and, Bool.false_eq_true, if_false]
    rw [saveCurrentTabMessages_of_none s hsave]
    split
    · exact ⟨rfl, fun k hk => lookupStream_setStream_ne _ tid k _ hk⟩
    · exact ⟨rfl, fun k _ => rfl⟩

theorem clearMessages_eq (s : ChatWindowState) :
    clearMessages s =
      ({ s with
          tabStreamState := setStream s.tabStreamState s.activeTabId
            TabStream.initial
          messagesMirror := []
          chatTabs := s.chatTabs.map (fun t =>
            if t.id == s.activeTabId then { t with messages := [] } else t) },
        (streamOf s s.activeTabId).hasAbortController) := rfl

/-- C8: closing a tab first aborts any outstanding stream for it and leaves
the tab with no stream state; when other tabs remain, the tab itself is
discarded (so no Message can be appended from the in-flight turn); the last
remaining tab is not discarded — it is kept, with its id, and only cleared. -/
theorem close_tab_spec (s : ChatWindowState) (tabId idx : Nat)
    (hidx : s.chatTabs.findIdx? (fun t => t.id == tabId) = some idx)
    (hnodup : (s.chatTabs.map Tab.id).Nodup) :
    ((streamOf s tabId).hasAbortController = true →
      (closeChatTab s tabId).2 = true) ∧
    streamOf (closeChatTab s tabId).1 tabId = TabStream.initial ∧
    (s.chatTabs.length = 1 →
      (closeChatTab s tabId).1.chatTabs.map Tab.id = s.chatTabs.map Tab.id ∧
      (closeChatTab s tabId).1.chatTabs.map Tab.messages = [[]]) ∧
    (1 < s.chatTabs.length →
      (closeChatTab s tabId).1.chatTabs = s.chatTabs.eraseIdx idx) := by
  unfold closeChatTab
  rw [hidx]
  simp only []
  rw [cleanupTabStream_eq]
  simp only []
  by_cases hlen : (s.chatTabs.length == 1) = true
  · -- last remaining tab: closing refused, tab cleared instead
    obtain ⟨t0, ht0⟩ := List.length_eq_one.mp (by simpa using hlen)
    simp only [hlen, if_true, clearMessages_eq]
    refine ⟨fun hab => by simp [hab], ?_, fun _ => ?_, fun hgt => ?_⟩
    · show (lookupStream (setStream (removeStream s.tabStreamState tabId)
          s.activeTabId TabStream.initial) tabId).getD TabStream.initial =
        TabStream.initial
      by_cases hact : (tabId == s.activeTabId) = true
      · have e : tabId = s.activeTabId := by simpa using hact
        rw [e, lookupStream_setStream_self]
        rfl
      · rw [lookupStream_setStream_ne _ _ _ _ (eq_false_of_ne_true hact),
          lookupStream_removeStream_self]
        rfl
    · rw [ht0]
      by_cases hact : (t0.id == s.activeTabId) = true <;>
        simp only [hact, List.map_cons, List.map_nil] <;>
        constructor <;> simp
    · exfalso
      have : s.chatTabs.length = 1 := by simpa using hlen
      omega
  · -- other tabs remain: the tab is discarded
    simp only [hlen, Bool.false_eq_true, if_false]
    have hactx : ∀ t ∈ s.chatTabs.eraseIdx idx, (t.id == tabId) = false :=
      eraseIdx_no_match tabId s.chatTabs idx hidx hnodup
    by_cases hact : (s.activeTabId == tabId) = true
    · have ea : s.activeTabId = tabId := by simpa using hact
      simp only [hact, if_true]
      cases hget : (s.chatTabs.eraseIdx idx)[min idx
          ((s.chatTabs.eraseIdx idx).length - 1)]? with
      | none =>
        refine ⟨fun hab => by simp [hab], ?_, fun h1 => ?_, fun hgt => rfl⟩
        · show (lookupStream (removeStream s.tabStreamState tabId)
              tabId).getD TabStream.initial = TabStream.initial
          rw [lookupStream_removeStream_self]
          rfl
        · exfalso
          have hne : s.chatTabs.length ≠ 1 := by simpa using hlen
          exact hne h1
      | some t2 =>
        have ht2mem : t2 ∈ s.chatTabs.eraseIdx idx := List.getElem?_mem hget
        have ht2id : (t2.id == tabId) = false := hactx t2 ht2mem
        have ht2ne : t2.id ≠ tabId := by simpa using ht2id
        have hkk : (tabId == t2.id) = false := by
          simpa using fun h => ht2ne h.symm
        have hprev4 : (streamOf ({ chatTabs := s.chatTabs.eraseIdx idx, activeTabId := s.activeTabId, tabStreamState := removeStream s.tabStreamState tabId, messagesMirror := s.messagesMirror } : ChatWindowState) (({ chatTabs := s.chatTabs.eraseIdx idx, activeTabId := s.activeTabId, tabStreamState := removeStream s.tabStreamState tabId, messagesMirror := s.messagesMirror } : ChatWindowState)).activeTabId).isStreaming = false := by
          show ((lookupStream (removeStream s.tabStreamState tabId) s.activeTabId).getD TabStream.initial).isStreaming = false
          rw [ea, lookupStream_removeStream_self]
          rfl
        have hsave4 : (s.chatTabs.eraseIdx idx).find? (fun t => t.id == s.activeTabId) = none := by
          refine List.find?_eq_none.mpr (fun t ht => ?_)
          rw [ea]
          simp [hactx t ht]
        obtain ⟨htabs, hstreams⟩ := switchToTab_of_inactive_prev ({ chatTabs := s.chatTabs.eraseIdx idx, activeTabId := s.activeTabId, tabStreamState := removeStream s.tabStreamState tabId, messagesMirror := s.messagesMirror } : ChatWindowState) t2.id hprev4 hsave4
        refine ⟨fun hab => by simp [hab], ?_, fun h1 => ?_, fun hgt => ?_⟩
        · show (lookupStream (switchToTab ({ chatTabs := s.chatTabs.eraseIdx idx, activeTabId := s.activeTabId, tabStreamState := removeStream s.tabStreamState tabId, messagesMirror := s.messagesMirror } : ChatWindowState) t2.id).tabStreamState tabId).getD TabStream.initial = TabStream.initial
          rw [hstreams tabId hkk]
          show (lookupStream (removeStream s.tabStreamState tabId) tabId).getD TabStream.initial = TabStream.initial
          rw [lookupStream_removeStream_self]
          rfl
        · exfalso
          have hne : s.chatTabs.length ≠ 1 := by simpa using hlen
          exact hne h1
        · exact htabs
    · have hact' : (s.activeTabId == tabId) = false := eq_false_of_ne_true hact
      simp only [hact', Bool.false_eq_true, if_false]
      refine ⟨fun hab => by simp [hab], ?_, fun h1 => ?_, fun hgt => by trivial⟩
      · show (lookupStream (removeStream s.tabStreamState tabId)
            tabId).getD TabStream.initial = TabStream.initial
        rw [lookupStream_removeStream_self]
        rfl
      · exfalso
        have hne : s.chatTabs.length ≠ 1 := by simpa using hlen
        exact hne h1

/-- Witness for the amended C6 at a concrete state. -/
theorem finalize_appends_per_call_witness :
    tabMessages dupState 1 = some [] ∧
    (tabMessages (finalizeStreamingBubble dupState 1 "x" 3) 1 =
      some ([] ++ [assistantMsg "x" 3]) ∧
    tabMessages (finalizeStreamingBubble
        (finalizeStreamingBubble dupState 1 "x" 3) 1 "x" 4) 1 =
      some (([] ++ [assistantMsg "x" 3]) ++ [assistantMsg "x" 4])) :=
  ⟨rfl, finalize_appends_per_call dupState 1 "x" 3 4 [] rfl⟩

/-- Witness for C8 at a concrete two-tab state: closing tab 1 leaves it
with no stream state. -/
theorem close_tab_spec_witness :
    streamOf (closeChatTab closeScenario 1).1 1 = TabStream.initial :=
  (close_tab_spec closeScenario 1 0 (by decide) (by decide)).2.1

/-- C9 counterexample: a `tool_result` whose payload is a recognized
`open_note_tab` action, with both collaborators available, triggers two
external collaborator calls (tab creation and navigation), not exactly
one. -/
theorem open_note_tab_two_calls :
    handleToolResult parseActions true true noteToolResultEvent =
      [CollabCall.createNewTab "My Note" "objective",
       CollabCall.navigateToNote (some (Json.str "n1"))] ∧
    (handleToolResult parseActions true true noteToolResultEvent).length = 2 ∧
    ((handleToolResult parseActions true true noteToolResultEvent).length
      == 1) = false :=
  ⟨rfl, rfl, rfl⟩

/-- C9 amended: the Action Dispatcher parses the result payload as JSON and
dispatches only recognized actions: a payload that is not JSON, or JSON
without a truthy `action` field, or with an unrecognized action name, is
silently ignored (no collaborator call, no error); `open_url_tab` invokes
exactly one collaborator call; `open_note_tab` with both collaborators
available invokes exactly two (tab creation, then navigation). -/
theorem tool_result_dispatch :
    (∀ (parse : String → Option Json) (hasTabs hasNav : Bool) (ev r : Json),
      ev.getField "result" = some r → r.truthy = true →
      parse r.asText = none →
      handleToolResult parse hasTabs hasNav ev = []) ∧
    (∀ (parse : String → Option Json) (hasTabs hasNav : Bool)
        (ev r result : Json),
      ev.getField "result" = some r → r.truthy = true →
      parse r.asText = some result →
      result.getField "action" = none →
      handleToolResult parse hasTabs hasNav ev = []) ∧
    (∀ (hasTabs hasNav : Bool) (action : Json),
      jsonIs (action.getField "action") "open_note_tab" = false →
      jsonIs (action.getField "action") "open_url_tab" = false →
      executeAction hasTabs hasNav action = []) ∧
    (∀ (hasTabs hasNav : Bool) (action : Json),
      jsonIs (action.getField "action") "open_url_tab" = true →
      executeAction hasTabs hasNav action =
        [CollabCall.openUrl (action.getField "url")]) ∧
    (∀ action : Json,
      jsonIs (action.getField "action") "open_note_tab" = true →
      (executeAction true true action).length = 2) := by
  refine ⟨fun parse hasTabs hasNav ev r h1 h2 h3 => ?_,
    fun parse hasTabs hasNav ev r result h1 h2 h3 h4 => ?_,
    fun hasTabs hasNav action h1 h2 => ?_,
    fun hasTabs hasNav action h => ?_,
    fun action h => ?_⟩
  · unfold handleToolResult
    rw [h1]
    simp [h2, h3]
  · unfold handleToolResult
    rw [h1]
    simp [h2, h3, h4]
  · unfold executeAction
    simp [h1, h2]
  · obtain ⟨t, ht, htv⟩ : ∃ t, action.getField "action" = some (Json.str t) ∧
        (t == "open_url_tab") = true := by
      unfold jsonIs at h
      cases ha : action.getField "action" with
      | none => rw [ha] at h; simp at h
      | some v =>
        rw [ha] at h
        cases v with
        | str tt => exact ⟨tt, rfl, by simpa using h⟩
        | null => exact absurd h (by simp)
        | bool b => exact absurd h (by simp)
        | num n => exact absurd h (by simp)
        | arr xs => exact absurd h (by simp)
        | obj fs => exact absurd h (by simp)
    have ht2 : t = "open_url_tab" := by simpa using htv
    subst ht2
    unfold executeAction
    rw [ht]
    simp [jsonIs]
  · obtain ⟨t, ht, htv⟩ : ∃ t, action.getField "action" = some (Json.str t) ∧
        (t == "open_note_tab") = true := by
      unfold jsonIs at h
      cases ha : action.getField "action" with
      | none => rw [ha] at h; simp at h
      | some v =>
        rw [ha] at h
        cases v with
        | str tt => exact ⟨tt, rfl, by simpa using h⟩
        | null => exact absurd h (by simp)
        | bool b => exact absurd h (by simp)
        | num n => exact absurd h (by simp)
        | arr xs => exact absurd h (by simp)
        | obj fs => exact absurd h (by simp)
    have ht2 : t = "open_note_tab" := by simpa using htv
    subst ht2
    unfold executeAction
    rw [ht]
    simp only [jsonIs]
    cases hn : action.getField "noteName" with
    | none => simp
    | some v => by_cases hv : v.truthy = true <;> simp [hv]

/-- Witness for the amended C9: a concrete `open_url_tab` action yields
exactly the one URL-opening call. -/
theorem tool_result_dispatch_witness :
    executeAction true false urlActionJson =
      [CollabCall.openUrl (urlActionJson.getField "url")] :=
  tool_result_dispatch.2.2.2.1 true false urlActionJson (by decide)

end Objectiv
